import Mathlib

/-!
Verification of the cashubash-8bit wallet gateway (`src/index.ts`) and the
camera QR scanner module (`src/ui/qr-scanner.ts`) against its specification.

The TypeScript sources are shallowly embedded: session contexts become a
two-field structure, the external client SDK becomes an oracle environment
(`WalletEnv`), HTTP handlers become pure functions from context and parsed
body to a response, an updated context and a list of observable events, and
the scanner module's mutable module state becomes an explicit state machine.
-/

namespace Cashubash

/-! ## JavaScript value model

Request bodies are parsed JSON, so a field can be absent, `null`, a number
(possibly `NaN` or an infinity), a string, a boolean, or some other object.
-/

/-- A JavaScript number: `NaN`, an infinity, or a finite value. -/
inductive JsNum where
  | nan
  | posInf
  | negInf
  | fin (q : Rat)
deriving DecidableEq, Repr

/-- Mirrors `Number.isFinite`. -/
def JsNum.isFinite : JsNum → Bool
  | .fin _ => true
  | _ => false

/-- Mirrors the JavaScript comparison `x <= 0` (false on `NaN`). -/
def JsNum.leZero : JsNum → Bool
  | .nan => false
  | .posInf => false
  | .negInf => true
  | .fin q => decide (q ≤ 0)

/-- Mirrors JavaScript truthiness of a number. -/
def JsNum.truthy : JsNum → Bool
  | .nan => false
  | .posInf => true
  | .negInf => true
  | .fin q => decide (q ≠ 0)

/-- A JSON-derived field of a request body, as JavaScript sees it. -/
inductive JField where
  | absent
  | jsNull
  | jsNum (n : JsNum)
  | jsStr (s : String)
  | jsBool (b : Bool)
  | jsObj
deriving DecidableEq, Repr

/-- Mirrors JavaScript truthiness (`!x` is `!truthy x`). -/
def JField.truthy : JField → Bool
  | .absent => false
  | .jsNull => false
  | .jsNum n => n.truthy
  | .jsStr s => decide (s ≠ "")
  | .jsBool b => b
  | .jsObj => false || true

/-- Mirrors the validation
`typeof amount !== "number" || !Number.isFinite(amount) || amount <= 0`
used by make-invoice and send-ecash: `true` means the request is rejected. -/
def amountInvalid : JField → Bool
  | .jsNum n => !n.isFinite || n.leZero
  | _ => true

/-- Mirrors the pay-invoice override validation
`typeof amount === "number" && (!Number.isFinite(amount) || amount <= 0)`:
`true` means the request is rejected. -/
def overrideInvalid : JField → Bool
  | .jsNum n => !n.isFinite || n.leZero
  | _ => false

/-- The finite numeric value of a field (only used after validation has
established the field is a finite number). -/
def JField.finVal : JField → Rat
  | .jsNum (.fin q) => q
  | _ => 0

/-! ## Session and client model (`src/index.ts`)

`CashubashClient` instances are opaque SDK objects; only their identity
matters, so a client is a wrapped id.  The external SDK is an oracle:
`create` returns `none` when `createCashubashClient` throws, and each RPC
returns `none` when the call throws.
-/

/-- Embeds JavaScript `String.prototype.trim`: drop leading and trailing
whitespace. (Defined structurally so that proofs can evaluate it; Lean's
own `String.trim` does not reduce in the kernel.) -/
def trimStr (s : String) : String :=
  String.mk (((s.data.dropWhile Char.isWhitespace).reverse.dropWhile
    Char.isWhitespace).reverse)

/-- An opaque `CashubashClient` instance, identified by `cid`. -/
structure ClientObj where
  cid : Nat
deriving DecidableEq, Repr

/-- Mirrors `interface SessionContext` (both fields optional). -/
structure SessionContext where
  serverPubkey : Option String
  client : Option ClientObj
deriving DecidableEq, Repr

/-- Result record of `client.GetBalance`. -/
structure BalanceResult where
  balance : Int
deriving DecidableEq, Repr

/-- Result record of `client.MakeInvoice`. -/
structure InvoiceResult where
  invoice : String
  amount : Int
  expires_at : Int
deriving DecidableEq, Repr

/-- Result record of `client.PayInvoice`. -/
structure PayResult where
  preimage : String
  fees_paid : Int
deriving DecidableEq, Repr

/-- Result record of `client.SendEcash`. -/
structure EcashResult where
  cashuToken : String
  sentAmount : Int
  keepAmount : Int
  proofCount : Nat
  timestamp : Int
deriving DecidableEq, Repr

/-- Oracle for the imported SDK: `none` models a thrown exception. -/
structure WalletEnv where
  create : String → Option ClientObj
  getBalance : ClientObj → Option BalanceResult
  makeInvoice : ClientObj → Rat → JField → JField → Option InvoiceResult
  payInvoice : ClientObj → JField → JField → Option PayResult
  sendEcash : ClientObj → Rat → Option EcashResult

/-- Observable effects of a handler: client teardown, client construction
(`ok` records whether `createCashubashClient` returned or threw), and the
four RPC invocations with their arguments. `callMakeInvoice` keeps the
always-`undefined` third argument of `MakeInvoice` explicit. -/
inductive SEvent where
  | disconnect (c : ClientObj)
  | create (pk : String) (ok : Bool)
  | callGetBalance
  | callMakeInvoice (amount : Rat) (description : JField) (third : Option Unit) (expiry : JField)
  | callPayInvoice (invoice : JField) (amount : JField)
  | callSendEcash (amount : Rat)
deriving DecidableEq, Repr

/-- Whether an event is a `createCashubashClient` invocation. -/
def SEvent.isCreate : SEvent → Bool
  | .create _ _ => true
  | _ => false

/-- Whether an event is an RPC invocation on the wallet client. -/
def SEvent.isCall : SEvent → Bool
  | .callGetBalance => true
  | .callMakeInvoice _ _ _ _ => true
  | .callPayInvoice _ _ => true
  | .callSendEcash _ => true
  | _ => false

/-- Number of client constructions recorded in an event list. -/
def createCount (evs : List SEvent) : Nat :=
  (evs.filter SEvent.isCreate).length

/-- Embeds `disconnectSessionClient` (src/index.ts:271-281): a no-op without
a client, otherwise disconnect (errors are swallowed) and clear the client. -/
def disconnectSessionClient (ctx : SessionContext) : SessionContext × List SEvent :=
  match ctx.client with
  | none => (ctx, [])
  | some c => ({ ctx with client := none }, [SEvent.disconnect c])

/-- Output of `ensureSessionClient`: the returned client (or `null`), the
updated context, and the construction events that happened. -/
structure EnsureOut where
  client : Option ClientObj
  ctx : SessionContext
  events : List SEvent
deriving DecidableEq, Repr

/-- Embeds `ensureSessionClient` (src/index.ts:283-300): return `null` when
the trimmed pubkey is missing or empty, return the cached client when there
is one, otherwise construct one; on a construction failure clear both the
client and the pubkey and return `null`. -/
def ensureSessionClient (env : WalletEnv) (ctx : SessionContext) : EnsureOut :=
  match ctx.serverPubkey with
  | none => ⟨none, ctx, []⟩
  | some s =>
      let pubkey := trimStr s
      if pubkey = "" then ⟨none, ctx, []⟩
      else
        match ctx.client with
        | some c => ⟨some c, ctx, []⟩
        | none =>
            match env.create pubkey with
            | some c => ⟨some c, { ctx with client := some c }, [SEvent.create pubkey true]⟩
            | none => ⟨none, { serverPubkey := none, client := none },
                       [SEvent.create pubkey false]⟩

/-! ## HTTP handlers (`handleApi`, src/index.ts:420-640)

Each endpoint handler takes the oracle environment, the session context the
request resolved to, and the parsed request body (`none` models a JSON parse
failure).  It returns the response, the updated context and the events.
Method dispatch (405 responses) is outside the claims and not modelled.
-/

/-- Response bodies produced by the API handlers, one constructor per JSON
shape the code builds. `configuredBody pk` is the object with `configured`
set to true and `serverPubkey` set to `pk`; `clearedBody` is the object with
`cleared` set to true. -/
inductive RespBody where
  | message (m : String)
  | balanceBody (balance : Int)
  | invoiceBody (invoice : String) (amount : Int) (expiresAt : Int)
  | payBody (preimage : String) (feesPaid : Int)
  | ecashBody (cashuToken : String) (sentAmount : Int) (keepAmount : Int)
      (proofCount : Nat) (timestamp : Int)
  | configuredBody (serverPubkey : Option String)
  | clearedBody
deriving DecidableEq, Repr

/-- An HTTP response: status code and JSON body. -/
structure Resp where
  status : Nat
  body : RespBody
deriving DecidableEq, Repr

/-- Full output of one endpoint handler. -/
structure HandlerOut where
  resp : Resp
  ctx : SessionContext
  events : List SEvent
deriving DecidableEq, Repr

/-- Parsed body of POST /api/make-invoice. Only `amount` is validated;
`description` and `expiry` are forwarded as-is. -/
structure MakeInvoiceBody where
  amount : JField
  description : JField
  expiry : JField
deriving DecidableEq, Repr

/-- Parsed body of POST /api/pay-invoice. -/
structure PayInvoiceBody where
  invoice : JField
  amount : JField
deriving DecidableEq, Repr

/-- Parsed body of POST /api/send-ecash. -/
structure SendEcashBody where
  amount : JField
deriving DecidableEq, Repr

/-- Parsed body of POST /api/server-pubkey. -/
structure ServerPubkeyBody where
  serverPubkey : JField
deriving DecidableEq, Repr

/-- Embeds the GET /api/balance arm of `handleApi` (src/index.ts:504-521). -/
def handleBalance (env : WalletEnv) (ctx : SessionContext) : HandlerOut :=
  let e := ensureSessionClient env ctx
  match e.client with
  | none => ⟨⟨503, .message "Server pubkey not configured"⟩, e.ctx, e.events⟩
  | some c =>
      match env.getBalance c with
      | some r => ⟨⟨200, .balanceBody r.balance⟩, e.ctx,
                   e.events ++ [SEvent.callGetBalance]⟩
      | none => ⟨⟨502, .message "Failed to fetch balance"⟩, e.ctx,
                 e.events ++ [SEvent.callGetBalance]⟩

/-- Embeds the POST /api/make-invoice arm of `handleApi`
(src/index.ts:522-561). -/
def handleMakeInvoice (env : WalletEnv) (ctx : SessionContext)
    (body : Option MakeInvoiceBody) : HandlerOut :=
  match body with
  | none => ⟨⟨400, .message "Invalid JSON body"⟩, ctx, []⟩
  | some p =>
      if amountInvalid p.amount then
        ⟨⟨400, .message "Amount must be a positive number"⟩, ctx, []⟩
      else
        let e := ensureSessionClient env ctx
        match e.client with
        | none => ⟨⟨503, .message "Server pubkey not configured"⟩, e.ctx, e.events⟩
        | some c =>
            let callEv := SEvent.callMakeInvoice p.amount.finVal p.description none p.expiry
            match env.makeInvoice c p.amount.finVal p.description p.expiry with
            | some r => ⟨⟨200, .invoiceBody r.invoice r.amount r.expires_at⟩, e.ctx,
                         e.events ++ [callEv]⟩
            | none => ⟨⟨502, .message "Failed to make invoice"⟩, e.ctx,
                       e.events ++ [callEv]⟩

/-- Embeds the POST /api/pay-invoice arm of `handleApi`
(src/index.ts:562-599). The `!payload.invoice` guard is a truthiness test. -/
def handlePayInvoice (env : WalletEnv) (ctx : SessionContext)
    (body : Option PayInvoiceBody) : HandlerOut :=
  match body with
  | none => ⟨⟨400, .message "Invalid JSON body"⟩, ctx, []⟩
  | some p =>
      if !p.invoice.truthy then
        ⟨⟨400, .message "Invoice is required"⟩, ctx, []⟩
      else if overrideInvalid p.amount then
        ⟨⟨400, .message "Amount override must be positive"⟩, ctx, []⟩
      else
        let e := ensureSessionClient env ctx
        match e.client with
        | none => ⟨⟨503, .message "Server pubkey not configured"⟩, e.ctx, e.events⟩
        | some c =>
            match env.payInvoice c p.invoice p.amount with
            | some r => ⟨⟨200, .payBody r.preimage r.fees_paid⟩, e.ctx,
                         e.events ++ [SEvent.callPayInvoice p.invoice p.amount]⟩
            | none => ⟨⟨502, .message "Failed to pay invoice"⟩, e.ctx,
                       e.events ++ [SEvent.callPayInvoice p.invoice p.amount]⟩

/-- Embeds the POST /api/send-ecash arm of `handleApi`
(src/index.ts:600-636). -/
def handleSendEcash (env : WalletEnv) (ctx : SessionContext)
    (body : Option SendEcashBody) : HandlerOut :=
  match body with
  | none => ⟨⟨400, .message "Invalid JSON body"⟩, ctx, []⟩
  | some p =>
      if amountInvalid p.amount then
        ⟨⟨400, .message "Amount must be a positive number"⟩, ctx, []⟩
      else
        let e := ensureSessionClient env ctx
        match e.client with
        | none => ⟨⟨503, .message "Server pubkey not configured"⟩, e.ctx, e.events⟩
        | some c =>
            match env.sendEcash c p.amount.finVal with
            | some r => ⟨⟨200, .ecashBody r.cashuToken r.sentAmount r.keepAmount
                            r.proofCount r.timestamp⟩, e.ctx,
                         e.events ++ [SEvent.callSendEcash p.amount.finVal]⟩
            | none => ⟨⟨502, .message "Failed to mint ecash"⟩, e.ctx,
                       e.events ++ [SEvent.callSendEcash p.amount.finVal]⟩

/-- Embeds the POST /api/server-pubkey arm of `handleApi`
(src/index.ts:435-489): reject non-string or blank pubkeys; if the trimmed
pubkey equals the configured one just ensure a client exists; otherwise
disconnect the old client, store the new pubkey and create a client,
rolling the pubkey back with a 503 when creation fails. -/
def handleServerPubkeyPost (env : WalletEnv) (ctx : SessionContext)
    (body : Option ServerPubkeyBody) : HandlerOut :=
  match body with
  | none => ⟨⟨400, .message "Invalid JSON body"⟩, ctx, []⟩
  | some p =>
      match p.serverPubkey with
      | .jsStr candidate =>
          let trimmed := trimStr candidate
          if trimmed = "" then
            ⟨⟨400, .message "Server pubkey cannot be empty"⟩, ctx, []⟩
          else if ctx.serverPubkey = some trimmed then
            let e := ensureSessionClient env ctx
            ⟨⟨200, .configuredBody e.ctx.serverPubkey⟩, e.ctx, e.events⟩
          else
            let d := disconnectSessionClient ctx
            let e := ensureSessionClient env { d.1 with serverPubkey := some trimmed }
            match e.client with
            | none => ⟨⟨503, .message "Failed to configure server pubkey"⟩,
                       { e.ctx with serverPubkey := none }, d.2 ++ e.events⟩
            | some _ => ⟨⟨200, .configuredBody e.ctx.serverPubkey⟩, e.ctx, d.2 ++ e.events⟩
      | _ => ⟨⟨400, .message "serverPubkey must be a string"⟩, ctx, []⟩

/-- Embeds the DELETE /api/server-pubkey arm of `handleApi`
(src/index.ts:490-501): disconnect any client, clear both context fields,
answer 200 with the cleared body. -/
def handleServerPubkeyDelete (ctx : SessionContext) : HandlerOut :=
  let d := disconnectSessionClient ctx
  ⟨⟨200, .clearedBody⟩, { serverPubkey := none, client := none }, d.2⟩

/-! ## Session resolution (`ensureSession`, src/index.ts:231-260)

The global `sessions` map becomes an association list (new entries are
prepended; `List.lookup` finds the most recent binding, matching `Map.set`
then `Map.get`).  `getDefaultServerPubkey` lives in the imported SDK module,
so its value is a parameter; `randomUUID` becomes the `freshId` parameter.
The extracted cookie value is an `Option String`; `some ""` is falsy in the
`if (!id)` test like a missing cookie.
-/

/-- The session cookie name. -/
def SESSION_COOKIE : String := "cashubash_session"

/-- The Set-Cookie header value built for a new session id. -/
def mkSetCookie (id : String) : String :=
  SESSION_COOKIE ++ "=" ++ id ++ "; Path=/; HttpOnly; SameSite=Lax; Max-Age=86400"

/-- Mirrors `interface SessionHandle`. -/
structure SessionHandle where
  id : String
  context : SessionContext
  setCookie : Option String
deriving DecidableEq, Repr

/-- The fresh context built when an id has no entry: seeded with the default
server pubkey when `getDefaultServerPubkey()` returns a truthy value. -/
def seededContext (defaultPubkey : Option String) : SessionContext :=
  match defaultPubkey with
  | some s => if s = "" then ⟨none, none⟩ else ⟨some s, none⟩
  | none => ⟨none, none⟩

/-- Embeds `ensureSession` (src/index.ts:231-260): take the cookie id if
truthy, else a fresh UUID; reuse the mapped context when the id has one,
otherwise create and store a seeded context; emit a Set-Cookie header only
when the id was freshly generated. -/
def ensureSession (defaultPubkey : Option String) (freshId : String)
    (cookie : Option String) (sessions : List (String × SessionContext)) :
    SessionHandle × List (String × SessionContext) :=
  let cookieId := cookie.getD ""
  let isNew := cookieId = ""
  let id := if isNew then freshId else cookieId
  let setCookie := if isNew then some (mkSetCookie id) else none
  match List.lookup id sessions with
  | some c => (⟨id, c, setCookie⟩, sessions)
  | none =>
      let context := seededContext defaultPubkey
      (⟨id, context, setCookie⟩, (id, context) :: sessions)

/-! ## Static asset resolution (`resolveAsset`, src/index.ts:128-149)

Paths are strings; `path.resolve` is embedded as segment-wise
normalisation of the concatenation of the (absolute) base directory and the
relative path, dropping `.` segments and letting `..` pop the previous
segment.  The filesystem is a snapshot: a list of regular files and a list
of directories.
-/

/-- Splits a character list at `/` into non-empty segments; `acc` holds the
characters of the current segment in reverse. (Structural so that the kernel
can evaluate it; `String.splitOn` does not reduce.) -/
def splitSegsAux (acc : List Char) : List Char → List String
  | [] => if acc.isEmpty then [] else [String.mk acc.reverse]
  | c :: rest =>
      if c = '/' then
        if acc.isEmpty then splitSegsAux [] rest
        else String.mk acc.reverse :: splitSegsAux [] rest
      else splitSegsAux (c :: acc) rest

/-- Path segments of a string, ignoring empty segments. -/
def splitSegs (s : String) : List String :=
  splitSegsAux [] s.data

/-- One step of segment normalisation over a reversed accumulator:
`.` is dropped, `..` pops, anything else is pushed. -/
def normStep (acc : List String) (seg : String) : List String :=
  if seg = "." then acc
  else if seg = ".." then acc.tail
  else seg :: acc

/-- Normalised segments of a path (for `..` above the root, `List.tail` on
`[]` keeps the root, as `path.resolve` does). -/
def resolveSegs (segs : List String) : List String :=
  (segs.foldl normStep []).reverse

/-- Joins segments with `/` separators. -/
def joinSegs : List String → String
  | [] => ""
  | [a] => a
  | a :: rest => a ++ "/" ++ joinSegs rest

/-- Renders normalised segments as an absolute path string. -/
def joinAbs (segs : List String) : String :=
  "/" ++ joinSegs segs

/-- Embeds `path.resolve(base, rel)` for an absolute `base`. -/
def resolvePath (base rel : String) : String :=
  joinAbs (resolveSegs (splitSegs base ++ splitSegs rel))

/-- Filesystem snapshot: the regular files and the directories that exist. -/
structure FileSys where
  files : List String
  dirs : List String
deriving DecidableEq, Repr

/-- Mirrors `existsSync`. -/
def FileSys.existsPath (fs : FileSys) (p : String) : Bool :=
  fs.files.contains p || fs.dirs.contains p

/-- Mirrors `statSync(p).isFile()`. -/
def FileSys.isFile (fs : FileSys) (p : String) : Bool :=
  fs.files.contains p

/-- Mirrors `requestPath.replace(new RegExp("^/+"), "")`. -/
def dropLeadingSlashes (s : String) : String :=
  String.mk (s.data.dropWhile (fun ch => ch = '/'))

/-- Whether `pat` is an initial run of `l` (structural `startsWith` on
characters, so the kernel can evaluate it). -/
def startsCh : List Char → List Char → Bool
  | [], _ => true
  | _ :: _, [] => false
  | a :: pat, b :: l => a == b && startsCh pat l

/-- Mirrors `s.startsWith(pat)`. -/
def strStarts (s pat : String) : Bool :=
  startsCh pat.data s.data

/-- Mirrors `s.endsWith("/")`. -/
def endsSlash (s : String) : Bool :=
  match s.data.getLast? with
  | some c => c == '/'
  | none => false

/-- Embeds `resolveAsset` (src/index.ts:128-149): drop leading slashes,
reject empty or directory-looking paths, resolve against the asset
directory, and require the candidate to start with the resolved asset
directory and to be an existing regular file. -/
def resolveAsset (fs : FileSys) (assetDir requestPath : String) : Option String :=
  let relative := dropLeadingSlashes requestPath
  if relative = "" then none
  else if endsSlash relative then none
  else
    let base := resolvePath assetDir ""
    let candidate := resolvePath assetDir relative
    if !(strStarts candidate base) then none
    else if !(fs.existsPath candidate) then none
    else if !(fs.isFile candidate) then none
    else some candidate

/-- Containment in a directory, on normalised absolute path strings: the
directory itself or a path below it. -/
def insideDir (dir p : String) : Bool :=
  p = dir || strStarts p (dir ++ "/")

/-! ## Camera QR scanner (`src/ui/qr-scanner.ts`)

The module state (`activeScanner`, `activeCancel`) and each promise's local
`settled` flag become an explicit state.  Scanner objects are numbered by a
counter; `settledOf` maps each created scan to its `settled` flag, and
`unreleased` is the ghost list of scanners created but not yet released.
The observable events are promise settlement and scanner lifecycle steps.
-/

/-- Observable events of the scanner module. -/
inductive QrEvent where
  | released (i : Nat)
  | resolved (i : Nat) (v : String)
  | rejected (i : Nat) (msg : String)
  | created (i : Nat)
  | started (i : Nat)
deriving DecidableEq, Repr

/-- State of the scanner module plus ghost bookkeeping. -/
structure QrState where
  nextId : Nat
  activeScanner : Option Nat
  activeCancel : Option Nat
  settledOf : List (Nat × Bool)
  unreleased : List Nat
deriving DecidableEq, Repr

/-- Initial module state: no scanner, no cancel hook, nothing created. -/
def qrInit : QrState := ⟨0, none, none, [], []⟩

/-- The `settled` flag of scan `i`; an unknown scan has no live callbacks,
so it counts as settled. -/
def settledLk (st : QrState) (i : Nat) : Bool :=
  (List.lookup i st.settledOf).getD true

/-- Marks scan `i` as settled. -/
def setSettled (l : List (Nat × Bool)) (i : Nat) : List (Nat × Bool) :=
  l.map (fun p => if p.1 = i then (p.1, true) else p)

/-- The state change shared by `resolveOnce` and `rejectOnce` once the
`settled` guard has passed: set `settled`, clear `activeCancel`, run
`finish` (clear `activeScanner`, release the scanner). -/
def settleState (st : QrState) (i : Nat) : QrState :=
  { st with settledOf := setSettled st.settledOf i,
            activeCancel := none,
            activeScanner := none,
            unreleased := st.unreleased.filter (fun j => j ≠ i) }

/-- Embeds `rejectOnce` for scan `i` (src/ui/qr-scanner.ts:52-60): a no-op
when already settled, otherwise perform the settling state change, with the
release happening before the promise rejection. -/
def rejectOnce (st : QrState) (i : Nat) (msg : String) : QrState × List QrEvent :=
  if settledLk st i then (st, [])
  else (settleState st i, [QrEvent.released i, QrEvent.rejected i msg])

/-- Embeds `resolveOnce` for scan `i` (src/ui/qr-scanner.ts:42-50), the
successful-decode twin of `rejectOnce`. -/
def resolveOnce (st : QrState) (i : Nat) (v : String) : QrState × List QrEvent :=
  if settledLk st i then (st, [])
  else (settleState st i, [QrEvent.released i, QrEvent.resolved i v])

/-- Embeds `cancelInvoiceScan` (src/ui/qr-scanner.ts:19-26): a no-op when no
cancel hook is registered, otherwise clear the hook and run it, which is
`rejectOnce` of the hooked scan. -/
def cancelScan (st : QrState) (msg : String) : QrState × List QrEvent :=
  match st.activeCancel with
  | none => (st, [])
  | some k => rejectOnce { st with activeCancel := none } k msg

/-- Embeds `scanInvoiceOnce` (src/ui/qr-scanner.ts:28-82) up to the point
the scanner is started: cancel any previous scan with the interrupt error,
create a fresh scanner, record it as active, register its cancel hook and
start it.  Decode and start-failure callbacks arrive later as `QrAct`s. -/
def scanOnce (st : QrState) : QrState × List QrEvent :=
  let r := cancelScan st "Interrupt previous scan"
  let st1 := r.1
  let j := st1.nextId
  let st2 : QrState :=
    { nextId := j + 1,
      activeScanner := some j,
      activeCancel := some j,
      settledOf := (j, false) :: st1.settledOf,
      unreleased := j :: st1.unreleased }
  (st2, r.2 ++ [QrEvent.created j, QrEvent.started j])

/-- The external stimuli of the scanner module: a successful decode callback
for scan `i`, a failed `scanner.start` for scan `i`, a user cancellation,
and a new `scanInvoiceOnce` call. -/
inductive QrAct where
  | decoded (i : Nat) (v : String)
  | startFail (i : Nat) (msg : String)
  | cancel (msg : String)
  | scan
deriving DecidableEq, Repr

/-- Steps the scanner state by one stimulus. -/
def qrStep (st : QrState) : QrAct → QrState × List QrEvent
  | .decoded i v => resolveOnce st i v
  | .startFail i m => rejectOnce st i m
  | .cancel m => cancelScan st m
  | .scan => scanOnce st

/-- Runs a list of stimuli, concatenating the emitted events. -/
def runActs (st : QrState) : List QrAct → QrState × List QrEvent
  | [] => (st, [])
  | a :: rest =>
      let s1 := qrStep st a
      let s2 := runActs s1.1 rest
      (s2.1, s1.2 ++ s2.2)

/-- Whether an event settles the promise of scan `i`. -/
def QrEvent.settles (i : Nat) : QrEvent → Bool
  | .resolved j _ => j == i
  | .rejected j _ => j == i
  | _ => false

/-- How many events in a list settle the promise of scan `i`. -/
def settleCount (i : Nat) (evs : List QrEvent) : Nat :=
  (evs.filter (QrEvent.settles i)).length

/-- Reachable-state invariant of the scanner module: created scans have ids
below the counter; when a cancel hook is registered it belongs to the single
unreleased, still-pending scan, which is also the active scanner, and every
other scan is settled; when no hook is registered every scanner has been
released and every scan is settled. -/
def qrInv (st : QrState) : Bool :=
  st.settledOf.all (fun p => p.1 < st.nextId) &&
  match st.activeCancel with
  | none => st.unreleased.isEmpty && st.settledOf.all (fun p => p.2)
  | some k =>
      (st.unreleased == [k]) && (st.activeScanner == some k) &&
      (List.lookup k st.settledOf == some false) &&
      st.settledOf.all (fun p => p.1 == k || p.2)

/-! ## Concrete instances used by witnesses -/

/-- An oracle in which construction and every RPC succeed. -/
def envOk : WalletEnv where
  create := fun _ => some ⟨1⟩
  getBalance := fun _ => some ⟨42⟩
  makeInvoice := fun _ _ _ _ => some ⟨"lnbc1", 5, 99⟩
  payInvoice := fun _ _ _ => some ⟨"preimage0", 2⟩
  sendEcash := fun _ _ => some ⟨"cashuA", 5, 1, 3, 7⟩

/-- A context with a configured pubkey and no cached client. -/
def ctxFresh : SessionContext := ⟨some "pk", none⟩

/-- A context with a configured pubkey and a cached client. -/
def ctxCached : SessionContext := ⟨some "pk", some ⟨7⟩⟩

/-! ## Theorems -/

/-- C2: for a context with a non-empty trimmed pubkey, `ensureSessionClient`
returns a cached client unchanged without constructing, constructs and
stores a client exactly when none is cached, two consecutive calls return
equal clients with at most one construction between them, and with no
configured pubkey it returns null without mutating anything. -/
theorem ensureSessionClient_lazy_idempotent (env : WalletEnv) (ctx : SessionContext)
    (p : String) (hpk : ctx.serverPubkey = some p) (hne : trimStr p ≠ "") :
    (∀ c, ctx.client = some c → ensureSessionClient env ctx = ⟨some c, ctx, []⟩) ∧
    (∀ c', ctx.client = none → env.create (trimStr p) = some c' →
        ensureSessionClient env ctx =
          ⟨some c', { ctx with client := some c' }, [SEvent.create (trimStr p) true]⟩) ∧
    ((ensureSessionClient env (ensureSessionClient env ctx).ctx).client
        = (ensureSessionClient env ctx).client ∧
     (ensureSessionClient env (ensureSessionClient env ctx).ctx).ctx
        = (ensureSessionClient env ctx).ctx ∧
     createCount ((ensureSessionClient env ctx).events
        ++ (ensureSessionClient env (ensureSessionClient env ctx).ctx).events) ≤ 1) ∧
    (∀ ctx2 : SessionContext,
        (ctx2.serverPubkey = none ∨ ∃ s, ctx2.serverPubkey = some s ∧ trimStr s = "") →
        ensureSessionClient env ctx2 = ⟨none, ctx2, []⟩) := by
  obtain ⟨pk, cl⟩ := ctx
  simp only at hpk
  subst hpk
  refine ⟨?_, ?_, ?_, ?_⟩
  · intro c hc
    simp only at hc
    subst hc
    simp [ensureSessionClient, hne]
  · intro c' hcl hcr
    simp only at hcl
    subst hcl
    simp [ensureSessionClient, hne, hcr]
  · cases cl with
    | some c => simp [ensureSessionClient, hne, createCount]
    | none =>
        cases hcr : env.create (trimStr p) with
        | some c' => simp [ensureSessionClient, hne, hcr, createCount,
                           List.filter, SEvent.isCreate]
        | none => simp [ensureSessionClient, hne, hcr, createCount,
                        List.filter, SEvent.isCreate]
  · intro ctx2 h
    obtain ⟨pk2, cl2⟩ := ctx2
    rcases h with h | ⟨s, hs, hst⟩
    · simp only at h
      subst h
      simp [ensureSessionClient]
    · simp only at hs
      subst hs
      simp [ensureSessionClient, hst]

/-- Witness for C2 at a concrete context and oracle. -/
theorem ensureSessionClient_lazy_idempotent_witness :
    ctxFresh.serverPubkey = some "pk" ∧ trimStr "pk" ≠ "" ∧
    (∀ c', ctxFresh.client = none → envOk.create (trimStr "pk") = some c' →
        ensureSessionClient envOk ctxFresh =
          ⟨some c', { ctxFresh with client := some c' }, [SEvent.create (trimStr "pk") true]⟩) :=
  ⟨by decide, by decide,
   (ensureSessionClient_lazy_idempotent envOk ctxFresh "pk" (by decide) (by decide)).2.1⟩

/-- C9: a POST of /api/server-pubkey whose trimmed pubkey equals the
configured one neither disconnects nor replaces the cached client, leaves
the context unchanged, and answers 200 with the configured body carrying
the unchanged pubkey. -/
theorem serverPubkeyPost_same_idempotent (env : WalletEnv) (ctx : SessionContext)
    (candidate p : String) (c : ClientObj)
    (hpk : ctx.serverPubkey = some p) (hcl : ctx.client = some c)
    (htrim : trimStr candidate = p) (hpe : p ≠ "") (hpt : trimStr p = p) :
    handleServerPubkeyPost env ctx (some ⟨JField.jsStr candidate⟩) =
      ⟨⟨200, RespBody.configuredBody (some p)⟩, ctx, []⟩ := by
  obtain ⟨pk, cl⟩ := ctx
  simp only at hpk hcl
  subst hpk
  subst hcl
  simp [handleServerPubkeyPost, htrim, hpe, ensureSessionClient, hpt]

/-- Witness for C9 at a concrete context and oracle. -/
theorem serverPubkeyPost_same_idempotent_witness :
    ctxCached.serverPubkey = some "pk" ∧ ctxCached.client = some ⟨7⟩ ∧
    trimStr " pk " = "pk" ∧ "pk" ≠ "" ∧ trimStr "pk" = "pk" ∧
    handleServerPubkeyPost envOk ctxCached (some ⟨JField.jsStr " pk "⟩) =
      ⟨⟨200, RespBody.configuredBody (some "pk")⟩, ctxCached, []⟩ :=
  ⟨by decide, by decide, by decide, by decide, by decide,
   serverPubkeyPost_same_idempotent envOk ctxCached " pk " "pk" ⟨7⟩
     (by decide) (by decide) (by decide) (by decide) (by decide)⟩

/-- C1: a POST of /api/server-pubkey with a different trimmed pubkey first
disconnects and discards the held client, then stores the new pubkey and
creates a new client (the event list orders the disconnect before the
construction); and a DELETE disconnects any held client, clears both
context fields and answers 200 with the cleared body. -/
theorem serverPubkey_reconfigure_and_delete (env : WalletEnv) (ctx : SessionContext)
    (candidate t : String) (c c' : ClientObj)
    (hcl : ctx.client = some c)
    (htrim : trimStr candidate = t) (hte : t ≠ "") (htt : trimStr t = t)
    (hdiff : ctx.serverPubkey ≠ some t)
    (hcr : env.create t = some c') :
    handleServerPubkeyPost env ctx (some ⟨JField.jsStr candidate⟩) =
      ⟨⟨200, RespBody.configuredBody (some t)⟩, ⟨some t, some c'⟩,
        [SEvent.disconnect c, SEvent.create t true]⟩ ∧
    (∀ ctx2 : SessionContext,
        (handleServerPubkeyDelete ctx2).resp = ⟨200, RespBody.clearedBody⟩ ∧
        (handleServerPubkeyDelete ctx2).ctx = ⟨none, none⟩ ∧
        (∀ c0, ctx2.client = some c0 →
            (handleServerPubkeyDelete ctx2).events = [SEvent.disconnect c0]) ∧
        (ctx2.client = none → (handleServerPubkeyDelete ctx2).events = [])) := by
  constructor
  · obtain ⟨pk, cl⟩ := ctx
    simp only at hcl hdiff
    subst hcl
    subst htrim
    simp [handleServerPubkeyPost, hte, hdiff, disconnectSessionClient,
          ensureSessionClient, htt, hcr]
  · intro ctx2
    obtain ⟨pk2, cl2⟩ := ctx2
    cases cl2 with
    | none => simp [handleServerPubkeyDelete, disconnectSessionClient]
    | some c0 => simp [handleServerPubkeyDelete, disconnectSessionClient]

/-- Witness for C1 at a concrete context and oracle. -/
theorem serverPubkey_reconfigure_and_delete_witness :
    ctxCached.client = some ⟨7⟩ ∧ trimStr " new " = "new" ∧ "new" ≠ "" ∧
    trimStr "new" = "new" ∧ ctxCached.serverPubkey ≠ some "new" ∧
    envOk.create "new" = some ⟨1⟩ ∧
    handleServerPubkeyPost envOk ctxCached (some ⟨JField.jsStr " new "⟩) =
      ⟨⟨200, RespBody.configuredBody (some "new")⟩, ⟨some "new", some ⟨1⟩⟩,
        [SEvent.disconnect ⟨7⟩, SEvent.create "new" true]⟩ :=
  ⟨by decide, by decide, by decide, by decide, by decide, by decide,
   (serverPubkey_reconfigure_and_delete envOk ctxCached " new " "new" ⟨7⟩ ⟨1⟩
     (by decide) (by decide) (by decide) (by decide) (by decide) (by decide)).1⟩

/-- C5: each wallet endpoint forwards its operation to the session's client
and returns the forwarded result: balance invokes GetBalance and returns its
balance, make-invoice invokes MakeInvoice with amount, description, an
undefined third argument and expiry and returns invoice, amount and
expires_at, pay-invoice invokes PayInvoice with invoice and amount and
returns preimage and fees_paid, send-ecash invokes SendEcash with amount
and returns the five ecash fields. -/
theorem gateway_forwards_wallet_ops (env : WalletEnv) (ctx : SessionContext)
    (c : ClientObj) (hc : (ensureSessionClient env ctx).client = some c) :
    (∀ r, env.getBalance c = some r →
        handleBalance env ctx =
          ⟨⟨200, RespBody.balanceBody r.balance⟩, (ensureSessionClient env ctx).ctx,
           (ensureSessionClient env ctx).events ++ [SEvent.callGetBalance]⟩) ∧
    (∀ p : MakeInvoiceBody, ∀ r, amountInvalid p.amount = false →
        env.makeInvoice c p.amount.finVal p.description p.expiry = some r →
        handleMakeInvoice env ctx (some p) =
          ⟨⟨200, RespBody.invoiceBody r.invoice r.amount r.expires_at⟩,
           (ensureSessionClient env ctx).ctx,
           (ensureSessionClient env ctx).events
             ++ [SEvent.callMakeInvoice p.amount.finVal p.description none p.expiry]⟩) ∧
    (∀ p : PayInvoiceBody, ∀ r, p.invoice.truthy = true →
        overrideInvalid p.amount = false →
        env.payInvoice c p.invoice p.amount = some r →
        handlePayInvoice env ctx (some p) =
          ⟨⟨200, RespBody.payBody r.preimage r.fees_paid⟩,
           (ensureSessionClient env ctx).ctx,
           (ensureSessionClient env ctx).events
             ++ [SEvent.callPayInvoice p.invoice p.amount]⟩) ∧
    (∀ p : SendEcashBody, ∀ r, amountInvalid p.amount = false →
        env.sendEcash c p.amount.finVal = some r →
        handleSendEcash env ctx (some p) =
          ⟨⟨200, RespBody.ecashBody r.cashuToken r.sentAmount r.keepAmount
              r.proofCount r.timestamp⟩,
           (ensureSessionClient env ctx).ctx,
           (ensureSessionClient env ctx).events
             ++ [SEvent.callSendEcash p.amount.finVal]⟩) := by
  refine ⟨?_, ?_, ?_, ?_⟩
  · intro r hr
    simp [handleBalance, hc, hr]
  · intro p r hv hr
    simp [handleMakeInvoice, hv, hc, hr]
  · intro p r hinv hov hr
    simp [handlePayInvoice, hinv, hov, hc, hr]
  · intro p r hv hr
    simp [handleSendEcash, hv, hc, hr]

/-- Witness for C5 at a concrete context and oracle. -/
theorem gateway_forwards_wallet_ops_witness :
    (ensureSessionClient envOk ctxCached).client = some ⟨7⟩ ∧
    envOk.getBalance ⟨7⟩ = some ⟨42⟩ ∧
    handleBalance envOk ctxCached =
      ⟨⟨200, RespBody.balanceBody 42⟩, (ensureSessionClient envOk ctxCached).ctx,
       (ensureSessionClient envOk ctxCached).events ++ [SEvent.callGetBalance]⟩ :=
  ⟨by decide, by decide,
   (gateway_forwards_wallet_ops envOk ctxCached ⟨7⟩ (by decide)).1 ⟨42⟩ (by decide)⟩

/-- C10: on the success path the only context mutation a wallet endpoint
performs is storing the lazily created client — the pubkey is untouched and
the client field changes only when it was empty — and a successful
GET /api/balance always performs exactly one fresh GetBalance call. -/
theorem wallet_success_frame (env : WalletEnv) (ctx : SessionContext) :
    ((handleBalance env ctx).resp.status = 200 →
        (handleBalance env ctx).ctx.serverPubkey = ctx.serverPubkey ∧
        ((handleBalance env ctx).ctx.client = ctx.client ∨ ctx.client = none) ∧
        ((handleBalance env ctx).events.filter SEvent.isCall) = [SEvent.callGetBalance]) ∧
    (∀ b, (handleMakeInvoice env ctx b).resp.status = 200 →
        (handleMakeInvoice env ctx b).ctx.serverPubkey = ctx.serverPubkey ∧
        ((handleMakeInvoice env ctx b).ctx.client = ctx.client ∨ ctx.client = none)) ∧
    (∀ b, (handlePayInvoice env ctx b).resp.status = 200 →
        (handlePayInvoice env ctx b).ctx.serverPubkey = ctx.serverPubkey ∧
        ((handlePayInvoice env ctx b).ctx.client = ctx.client ∨ ctx.client = none)) ∧
    (∀ b, (handleSendEcash env ctx b).resp.status = 200 →
        (handleSendEcash env ctx b).ctx.serverPubkey = ctx.serverPubkey ∧
        ((handleSendEcash env ctx b).ctx.client = ctx.client ∨ ctx.client = none)) := by
  have hensure : (ensureSessionClient env ctx).client ≠ none →
      (ensureSessionClient env ctx).ctx.serverPubkey = ctx.serverPubkey ∧
      ((ensureSessionClient env ctx).ctx.client = ctx.client ∨ ctx.client = none) ∧
      (ensureSessionClient env ctx).events.filter SEvent.isCall = [] := by
    intro hcl
    obtain ⟨pk, cl⟩ := ctx
    cases pk with
    | none => simp [ensureSessionClient]
    | some s =>
        by_cases hs : trimStr s = ""
        · simp [ensureSessionClient, hs]
        · cases cl with
          | some c => simp [ensureSessionClient, hs]
          | none =>
              cases hcr : env.create (trimStr s) with
              | some c' => simp [ensureSessionClient, hs, hcr, SEvent.isCall,
                                 List.filter]
              | none => simp [ensureSessionClient, hs, hcr] at hcl
  refine ⟨?_, ?_, ?_, ?_⟩
  · intro h200
    cases hc : (ensureSessionClient env ctx).client with
    | none => simp [handleBalance, hc] at h200
    | some c =>
        have hfr := hensure (by simp [hc])
        cases hb : env.getBalance c with
        | none => simp [handleBalance, hc, hb] at h200
        | some r =>
            refine ⟨?_, ?_, ?_⟩
            · simpa [handleBalance, hc, hb] using hfr.1
            · simpa [handleBalance, hc, hb] using hfr.2.1
            · simp [handleBalance, hc, hb, List.filter_append, hfr.2.2,
                    List.filter, SEvent.isCall]
  · intro b h200
    cases b with
    | none => simp [handleMakeInvoice] at h200
    | some p =>
        by_cases hv : amountInvalid p.amount
        · simp [handleMakeInvoice, hv] at h200
        · cases hc : (ensureSessionClient env ctx).client with
          | none => simp [handleMakeInvoice, hv, hc] at h200
          | some c =>
              have hfr := hensure (by simp [hc])
              cases hb : env.makeInvoice c p.amount.finVal p.description p.expiry with
              | none => simp [handleMakeInvoice, hv, hc, hb] at h200
              | some r =>
                  exact ⟨by simpa [handleMakeInvoice, hv, hc, hb] using hfr.1,
                         by simpa [handleMakeInvoice, hv, hc, hb] using hfr.2.1⟩
  · intro b h200
    cases b with
    | none => simp [handlePayInvoice] at h200
    | some p =>
        by_cases hinv : p.invoice.truthy
        · by_cases hov : overrideInvalid p.amount
          · simp [handlePayInvoice, hinv, hov] at h200
          · cases hc : (ensureSessionClient env ctx).client with
            | none => simp [handlePayInvoice, hinv, hov, hc] at h200
            | some c =>
                have hfr := hensure (by simp [hc])
                cases hb : env.payInvoice c p.invoice p.amount with
                | none => simp [handlePayInvoice, hinv, hov, hc, hb] at h200
                | some r =>
                    exact ⟨by simpa [handlePayInvoice, hinv, hov, hc, hb] using hfr.1,
                           by simpa [handlePayInvoice, hinv, hov, hc, hb] using hfr.2.1⟩
        · simp [handlePayInvoice, hinv] at h200
  · intro b h200
    cases b with
    | none => simp [handleSendEcash] at h200
    | some p =>
        by_cases hv : amountInvalid p.amount
        · simp [handleSendEcash, hv] at h200
        · cases hc : (ensureSessionClient env ctx).client with
          | none => simp [handleSendEcash, hv, hc] at h200
          | some c =>
              have hfr := hensure (by simp [hc])
              cases hb : env.sendEcash c p.amount.finVal with
              | none => simp [handleSendEcash, hv, hc, hb] at h200
              | some r =>
                  exact ⟨by simpa [handleSendEcash, hv, hc, hb] using hfr.1,
                         by simpa [handleSendEcash, hv, hc, hb] using hfr.2.1⟩

/-- Witness for C10 at a concrete context and oracle. -/
theorem wallet_success_frame_witness :
    (handleBalance envOk ctxFresh).resp.status = 200 ∧
    (handleBalance envOk ctxFresh).ctx.serverPubkey = ctxFresh.serverPubkey ∧
    ((handleBalance envOk ctxFresh).ctx.client = ctxFresh.client ∨
      ctxFresh.client = none) ∧
    ((handleBalance envOk ctxFresh).events.filter SEvent.isCall)
      = [SEvent.callGetBalance] :=
  ⟨by decide,
   (wallet_success_frame envOk ctxFresh).1 (by decide)⟩

/-- C8 counterexample: a pay-invoice body that is valid JSON, whose invoice
field is present (the empty string, not absent) and whose amount override is
absent still receives status 400, so "400 exactly when the body is invalid
JSON, the invoice is absent, or the amount override is a bad number" fails
as stated. -/
theorem payInvoice_empty_invoice_counterexample :
    (handlePayInvoice envOk ctxCached
        (some ⟨JField.jsStr "", JField.absent⟩)).resp.status = 400 ∧
    JField.jsStr "" ≠ JField.absent ∧
    overrideInvalid JField.absent = false ∧
    some (⟨JField.jsStr "", JField.absent⟩ : PayInvoiceBody)
      ≠ (none : Option PayInvoiceBody) := by
  decide

/-- C8 (amended): each wallet endpoint returns 400 exactly when the body is
invalid JSON, the amount is not a finite positive number (make-invoice,
send-ecash), the invoice is absent or otherwise falsy — for example the
empty string — (pay-invoice), or a supplied pay-invoice amount override is
a number that is not finite and positive; in every 400 case the client is
never invoked (no events at all) and the context is untouched; otherwise
503 exactly when no client can be obtained, 502 exactly when the client
call throws, and 200 exactly when it succeeds. -/
theorem wallet_status_classes (env : WalletEnv) (ctx : SessionContext) :
    (((handleBalance env ctx).resp.status = 503 ↔
        (ensureSessionClient env ctx).client = none) ∧
     (∀ c, (ensureSessionClient env ctx).client = some c →
        (((handleBalance env ctx).resp.status = 502 ↔ env.getBalance c = none) ∧
         ((handleBalance env ctx).resp.status = 200 ↔ env.getBalance c ≠ none)))) ∧
    (∀ b : Option MakeInvoiceBody,
        (((handleMakeInvoice env ctx b).resp.status = 400 ↔
            b = none ∨ ∃ p, b = some p ∧ amountInvalid p.amount = true) ∧
         ((handleMakeInvoice env ctx b).resp.status = 400 →
            (handleMakeInvoice env ctx b).events = [] ∧
            (handleMakeInvoice env ctx b).ctx = ctx) ∧
         (∀ p, b = some p → amountInvalid p.amount = false →
            (((handleMakeInvoice env ctx b).resp.status = 503 ↔
                (ensureSessionClient env ctx).client = none) ∧
             (∀ c, (ensureSessionClient env ctx).client = some c →
                (((handleMakeInvoice env ctx b).resp.status = 502 ↔
                    env.makeInvoice c p.amount.finVal p.description p.expiry = none) ∧
                 ((handleMakeInvoice env ctx b).resp.status = 200 ↔
                    env.makeInvoice c p.amount.finVal p.description p.expiry ≠ none))))))) ∧
    (∀ b : Option PayInvoiceBody,
        (((handlePayInvoice env ctx b).resp.status = 400 ↔
            b = none ∨ ∃ p, b = some p ∧
              (p.invoice.truthy = false ∨ overrideInvalid p.amount = true)) ∧
         ((handlePayInvoice env ctx b).resp.status = 400 →
            (handlePayInvoice env ctx b).events = [] ∧
            (handlePayInvoice env ctx b).ctx = ctx) ∧
         (∀ p, b = some p → p.invoice.truthy = true → overrideInvalid p.amount = false →
            (((handlePayInvoice env ctx b).resp.status = 503 ↔
                (ensureSessionClient env ctx).client = none) ∧
             (∀ c, (ensureSessionClient env ctx).client = some c →
                (((handlePayInvoice env ctx b).resp.status = 502 ↔
                    env.payInvoice c p.invoice p.amount = none) ∧
                 ((handlePayInvoice env ctx b).resp.status = 200 ↔
                    env.payInvoice c p.invoice p.amount ≠ none))))))) ∧
    (∀ b : Option SendEcashBody,
        (((handleSendEcash env ctx b).resp.status = 400 ↔
            b = none ∨ ∃ p, b = some p ∧ amountInvalid p.amount = true) ∧
         ((handleSendEcash env ctx b).resp.status = 400 →
            (handleSendEcash env ctx b).events = [] ∧
            (handleSendEcash env ctx b).ctx = ctx) ∧
         (∀ p, b = some p → amountInvalid p.amount = false →
            (((handleSendEcash env ctx b).resp.status = 503 ↔
                (ensureSessionClient env ctx).client = none) ∧
             (∀ c, (ensureSessionClient env ctx).client = some c →
                (((handleSendEcash env ctx b).resp.status = 502 ↔
                    env.sendEcash c p.amount.finVal = none) ∧
                 ((handleSendEcash env ctx b).resp.status = 200 ↔
                    env.sendEcash c p.amount.finVal ≠ none))))))) := by
  refine ⟨⟨?_, ?_⟩, ?_, ?_, ?_⟩
  · cases hc : (ensureSessionClient env ctx).client with
    | none => simp [handleBalance, hc]
    | some c =>
        cases hb : env.getBalance c with
        | none => simp [handleBalance, hc, hb]
        | some r => simp [handleBalance, hc, hb]
  · intro c hc
    cases hb : env.getBalance c with
    | none => simp [handleBalance, hc, hb]
    | some r => simp [handleBalance, hc, hb]
  · intro b
    refine ⟨?_, ?_, ?_⟩
    · cases b with
      | none => simp [handleMakeInvoice]
      | some p =>
          by_cases hv : amountInvalid p.amount
          · simp [handleMakeInvoice, hv]
          · cases hc : (ensureSessionClient env ctx).client with
            | none => simp [handleMakeInvoice, hv, hc]
            | some c =>
                cases hb : env.makeInvoice c p.amount.finVal p.description p.expiry with
                | none => simp [handleMakeInvoice, hv, hc, hb]
                | some r => simp [handleMakeInvoice, hv, hc, hb]
    · intro h400
      cases b with
      | none => simp [handleMakeInvoice]
      | some p =>
          by_cases hv : amountInvalid p.amount
          · simp [handleMakeInvoice, hv]
          · cases hc : (ensureSessionClient env ctx).client with
            | none => simp [handleMakeInvoice, hv, hc] at h400
            | some c =>
                cases hb : env.makeInvoice c p.amount.finVal p.description p.expiry with
                | none => simp [handleMakeInvoice, hv, hc, hb] at h400
                | some r => simp [handleMakeInvoice, hv, hc, hb] at h400
    · intro p hb' hv
      subst hb'
      refine ⟨?_, ?_⟩
      · cases hc : (ensureSessionClient env ctx).client with
        | none => simp [handleMakeInvoice, hv, hc]
        | some c =>
            cases hb : env.makeInvoice c p.amount.finVal p.description p.expiry with
            | none => simp [handleMakeInvoice, hv, hc, hb]
            | some r => simp [handleMakeInvoice, hv, hc, hb]
      · intro c hc
        cases hb : env.makeInvoice c p.amount.finVal p.description p.expiry with
        | none => simp [handleMakeInvoice, hv, hc, hb]
        | some r => simp [handleMakeInvoice, hv, hc, hb]
  · intro b
    refine ⟨?_, ?_, ?_⟩
    · cases b with
      | none => simp [handlePayInvoice]
      | some p =>
          by_cases hinv : p.invoice.truthy
          · by_cases hov : overrideInvalid p.amount
            · simp [handlePayInvoice, hinv, hov]
            · cases hc : (ensureSessionClient env ctx).client with
              | none => simp [handlePayInvoice, hinv, hov, hc]
              | some c =>
                  cases hb : env.payInvoice c p.invoice p.amount with
                  | none => simp [handlePayInvoice, hinv, hov, hc, hb]
                  | some r => simp [handlePayInvoice, hinv, hov, hc, hb]
          · simp [handlePayInvoice, hinv]
    · intro h400
      cases b with
      | none => simp [handlePayInvoice]
      | some p =>
          by_cases hinv : p.invoice.truthy
          · by_cases hov : overrideInvalid p.amount
            · simp [handlePayInvoice, hinv, hov]
            · cases hc : (ensureSessionClient env ctx).client with
              | none => simp [handlePayInvoice, hinv, hov, hc] at h400
              | some c =>
                  cases hb : env.payInvoice c p.invoice p.amount with
                  | none => simp [handlePayInvoice, hinv, hov, hc, hb] at h400
                  | some r => simp [handlePayInvoice, hinv, hov, hc, hb] at h400
          · simp [handlePayInvoice, hinv]
    · intro p hb' hinv hov
      subst hb'
      refine ⟨?_, ?_⟩
      · cases hc : (ensureSessionClient env ctx).client with
        | none => simp [handlePayInvoice, hinv, hov, hc]
        | some c =>
            cases hb : env.payInvoice c p.invoice p.amount with
            | none => simp [handlePayInvoice, hinv, hov, hc, hb]
            | some r => simp [handlePayInvoice, hinv, hov, hc, hb]
      · intro c hc
        cases hb : env.payInvoice c p.invoice p.amount with
        | none => simp [handlePayInvoice, hinv, hov, hc, hb]
        | some r => simp [handlePayInvoice, hinv, hov, hc, hb]
  · intro b
    refine ⟨?_, ?_, ?_⟩
    · cases b with
      | none => simp [handleSendEcash]
      | some p =>
          by_cases hv : amountInvalid p.amount
          · simp [handleSendEcash, hv]
          · cases hc : (ensureSessionClient env ctx).client with
            | none => simp [handleSendEcash, hv, hc]
            | some c =>
                cases hb : env.sendEcash c p.amount.finVal with
                | none => simp [handleSendEcash, hv, hc, hb]
                | some r => simp [handleSendEcash, hv, hc, hb]
    · intro h400
      cases b with
      | none => simp [handleSendEcash]
      | some p =>
          by_cases hv : amountInvalid p.amount
          · simp [handleSendEcash, hv]
          · cases hc : (ensureSessionClient env ctx).client with
            | none => simp [handleSendEcash, hv, hc] at h400
            | some c =>
                cases hb : env.sendEcash c p.amount.finVal with
                | none => simp [handleSendEcash, hv, hc, hb] at h400
                | some r => simp [handleSendEcash, hv, hc, hb] at h400
    · intro p hb' hv
      subst hb'
      refine ⟨?_, ?_⟩
      · cases hc : (ensureSessionClient env ctx).client with
        | none => simp [handleSendEcash, hv, hc]
        | some c =>
            cases hb : env.sendEcash c p.amount.finVal with
            | none => simp [handleSendEcash, hv, hc, hb]
            | some r => simp [handleSendEcash, hv, hc, hb]
      · intro c hc
        cases hb : env.sendEcash c p.amount.finVal with
        | none => simp [handleSendEcash, hv, hc, hb]
        | some r => simp [handleSendEcash, hv, hc, hb]

/-- Witness for C8 at a concrete context and oracle. -/
theorem wallet_status_classes_witness :
    (ensureSessionClient envOk ctxCached).client = some ⟨7⟩ ∧
    (((handleBalance envOk ctxCached).resp.status = 502 ↔
        envOk.getBalance ⟨7⟩ = none) ∧
     ((handleBalance envOk ctxCached).resp.status = 200 ↔
        envOk.getBalance ⟨7⟩ ≠ none)) :=
  ⟨by decide, (wallet_status_classes envOk ctxCached).1.2 ⟨7⟩ (by decide)⟩

/-- C6 counterexample: a request presenting a cookie id that is not in the
session map keeps the presented id — it receives neither a fresh UUID nor a
Set-Cookie header. -/
theorem ensureSession_stale_cookie_counterexample :
    (ensureSession none "11111111-2222-fresh" (some "stale-id") []).1.id
      = "stale-id" ∧
    (ensureSession none "11111111-2222-fresh" (some "stale-id") []).1.setCookie
      = none ∧
    "stale-id" ≠ "11111111-2222-fresh" := by
  decide

/-- C6 (amended): a request whose cookie id is in the map receives that
context unchanged with no Set-Cookie; a request with no (or an empty)
cookie id receives a fresh UUID, a context seeded with the default pubkey
when the environment provides a non-empty one, one new map entry, and a
Set-Cookie header carrying the fresh id; a request presenting a cookie id
that is not in the map keeps the presented id, receives a seeded context
and one new map entry under that id, and no Set-Cookie header; and two
requests presenting the same cookie id operate on the same context. -/
theorem ensureSession_request_cases (dp : Option String) (freshId : String)
    (cookie : Option String) (sessions : List (String × SessionContext)) :
    (∀ cid ctx0, cookie = some cid → cid ≠ "" →
        List.lookup cid sessions = some ctx0 →
        ensureSession dp freshId cookie sessions = (⟨cid, ctx0, none⟩, sessions)) ∧
    ((cookie = none ∨ cookie = some "") → List.lookup freshId sessions = none →
        ensureSession dp freshId cookie sessions =
          (⟨freshId, seededContext dp, some (mkSetCookie freshId)⟩,
           (freshId, seededContext dp) :: sessions)) ∧
    (∀ cid, cookie = some cid → cid ≠ "" → List.lookup cid sessions = none →
        ensureSession dp freshId cookie sessions =
          (⟨cid, seededContext dp, none⟩, (cid, seededContext dp) :: sessions)) ∧
    (∀ s, dp = some s → s ≠ "" → seededContext dp = ⟨some s, none⟩) ∧
    ((dp = none ∨ dp = some "") → seededContext dp = ⟨none, none⟩) ∧
    (∀ cid f1 f2, cid ≠ "" →
        ((ensureSession dp f2 (some cid)
            (ensureSession dp f1 (some cid) sessions).2).1).context
          = ((ensureSession dp f1 (some cid) sessions).1).context) := by
  refine ⟨?_, ?_, ?_, ?_, ?_, ?_⟩
  · intro cid ctx0 hck hne hlk
    subst hck
    simp [ensureSession, hne, hlk]
  · intro hck hlk
    rcases hck with h | h <;> subst h <;> simp [ensureSession, hlk]
  · intro cid hck hne hlk
    subst hck
    simp [ensureSession, hne, hlk]
  · intro s hdp hne
    subst hdp
    simp [seededContext, hne]
  · intro hdp
    rcases hdp with h | h <;> subst h <;> simp [seededContext]
  · intro cid f1 f2 hne
    cases hlk : List.lookup cid sessions with
    | some c => simp [ensureSession, hne, hlk]
    | none => simp [ensureSession, hne, hlk]

/-- Witness for the C6 amended theorem at concrete inputs. -/
theorem ensureSession_request_cases_witness :
    (some "known-id" : Option String) = some "known-id" ∧ "known-id" ≠ "" ∧
    List.lookup "known-id" [("known-id", ctxCached)] = some ctxCached ∧
    ensureSession (some "dpk") "fresh-1" (some "known-id")
        [("known-id", ctxCached)]
      = (⟨"known-id", ctxCached, none⟩, [("known-id", ctxCached)]) :=
  ⟨rfl, by decide, by decide,
   (ensureSession_request_cases (some "dpk") "fresh-1" (some "known-id")
      [("known-id", ctxCached)]).1 "known-id" ctxCached rfl (by decide) (by decide)⟩

/-- The filesystem in which the asset-directory escape happens: the asset
directory has a sibling directory whose name extends the asset directory's
name, holding a regular file. -/
def escapeFs : FileSys :=
  ⟨["/tmp/public-extra/s.txt"], ["/tmp", "/tmp/public", "/tmp/public-extra"]⟩

/-- C7: the confinement check of `resolveAsset` compares plain string
runs without a trailing separator, so a request path whose `..` segment
steps into a sibling directory whose name extends the asset directory's
name passes the check: `resolveAsset` returns an existing regular file that
lies outside the asset directory. -/
theorem resolveAsset_sibling_escape :
    resolveAsset escapeFs "/tmp/public" "/../public-extra/s.txt"
      = some "/tmp/public-extra/s.txt" ∧
    insideDir "/tmp/public" "/tmp/public-extra/s.txt" = false ∧
    escapeFs.isFile "/tmp/public-extra/s.txt" = true := by
  decide

/-! ### Scanner lemmas -/

theorem setSettled_cons (k : Nat) (b : Bool) (t : List (Nat × Bool)) (j : Nat) :
    setSettled ((k, b) :: t) j =
      (if k = j then (k, true) else (k, b)) :: setSettled t j := rfl

theorem lookup_setSettled_ne (l : List (Nat × Bool)) (a j : Nat) (h : a ≠ j) :
    List.lookup a (setSettled l j) = List.lookup a l := by
  induction l with
  | nil => rfl
  | cons p t ih =>
      obtain ⟨k, b⟩ := p
      by_cases hkj : k = j
      · subst hkj
        have hbeq : (a == k) = false := by simp [h]
        simp [setSettled_cons, List.lookup_cons, hbeq, ih]
      · by_cases hak : a = k
        · subst hak
          simp [setSettled_cons, hkj, List.lookup_cons]
        · have hbeq : (a == k) = false := by simp [hak]
          simp [setSettled_cons, hkj, List.lookup_cons, hbeq, ih]

theorem lookup_setSettled_self (l : List (Nat × Bool)) (j : Nat) :
    List.lookup j (setSettled l j) = (List.lookup j l).map (fun _ => true) := by
  induction l with
  | nil => rfl
  | cons p t ih =>
      obtain ⟨k, b⟩ := p
      by_cases hkj : k = j
      · subst hkj
        simp [setSettled_cons, List.lookup_cons]
      · have hbeq : (j == k) = false := by
          simp only [beq_eq_false_iff_ne, ne_eq]
          exact fun hjk => hkj hjk.symm
        simp [setSettled_cons, hkj, List.lookup_cons, hbeq, ih]

theorem lookup_mem (l : List (Nat × Bool)) (a : Nat) (b : Bool)
    (h : List.lookup a l = some b) : (a, b) ∈ l := by
  induction l with
  | nil => exact Option.noConfusion h
  | cons p t ih =>
      obtain ⟨k, c⟩ := p
      by_cases hak : a = k
      · subst hak
        rw [List.lookup_cons_self] at h
        obtain rfl : c = b := by exact Option.some.inj h
        exact List.mem_cons_self _ _
      · have hbeq : (a == k) = false := by simp [hak]
        rw [List.lookup_cons, hbeq] at h
        exact List.mem_cons_of_mem _ (ih h)

/-- When the invariant holds, a still-pending scan is exactly the scan whose
cancel hook is registered. -/
theorem unsettled_is_active (st : QrState) (k : Nat)
    (hinv : qrInv st = true) (hk : List.lookup k st.settledOf = some false) :
    st.activeCancel = some k := by
  have hmem := lookup_mem _ _ _ hk
  unfold qrInv at hinv
  cases hac : st.activeCancel with
  | none =>
      rw [hac] at hinv
      simp only [Bool.and_eq_true, List.all_eq_true] at hinv
      have := hinv.2.2 (k, false) hmem
      simp at this
  | some k' =>
      rw [hac] at hinv
      simp only [Bool.and_eq_true, List.all_eq_true, beq_iff_eq] at hinv
      by_cases hkk : k = k'
      · subst hkk; rfl
      · have := hinv.2.2 (k, false) hmem
        simp [hkk] at this

/-- The invariant bounds the unreleased scanners by one. -/
theorem qrInv_unreleased_len (st : QrState) (hinv : qrInv st = true) :
    st.unreleased.length ≤ 1 := by
  unfold qrInv at hinv
  cases hac : st.activeCancel with
  | none =>
      rw [hac] at hinv
      simp only [Bool.and_eq_true, List.isEmpty_iff] at hinv
      simp [hinv.2.1]
  | some k =>
      rw [hac] at hinv
      simp only [Bool.and_eq_true, beq_iff_eq] at hinv
      simp [hinv.2.1.1.1]

/-- `cancelInvoiceScan` always leaves the cancel hook cleared. -/
theorem cancelScan_activeCancel (st : QrState) (m : String) :
    (cancelScan st m).1.activeCancel = none := by
  cases hac : st.activeCancel with
  | none => simp [cancelScan, hac]
  | some k =>
      simp only [cancelScan, hac, rejectOnce]
      by_cases hs : settledLk { st with activeCancel := none } k = true
      · simp [hs]
      · simp [hs, settleState]

/-- `cancelInvoiceScan` does not touch the id counter. -/
theorem cancelScan_nextId (st : QrState) (m : String) :
    (cancelScan st m).1.nextId = st.nextId := by
  cases hac : st.activeCancel with
  | none => simp [cancelScan, hac]
  | some k =>
      simp only [cancelScan, hac, rejectOnce]
      by_cases hs : settledLk { st with activeCancel := none } k = true
      · simp [hs]
      · simp [hs, settleState]

theorem settledLk_false_lookup (st : QrState) (i : Nat)
    (h : settledLk st i = false) : List.lookup i st.settledOf = some false := by
  unfold settledLk at h
  cases hl : List.lookup i st.settledOf with
  | none => rw [hl] at h; simp at h
  | some b =>
      rw [hl] at h
      cases b with
      | false => rfl
      | true => simp at h

/-- Core of the settle-step preservation: after releasing the single
unreleased scanner and settling its scan, the no-hook invariant holds. -/
theorem qrInv_settleState_core (st : QrState) (i : Nat)
    (hkeys : ∀ p ∈ st.settledOf, p.1 < st.nextId)
    (hunrel : st.unreleased = [i])
    (hothers : ∀ p ∈ st.settledOf, p.1 = i ∨ p.2 = true) :
    qrInv (settleState st i) = true := by
  unfold qrInv settleState
  simp only [Bool.and_eq_true, List.all_eq_true, List.isEmpty_iff,
             decide_eq_true_eq]
  refine ⟨?_, ?_, ?_⟩
  · intro p hp
    obtain ⟨q, hq, rfl⟩ := List.mem_map.1 hp
    have hlt := hkeys q hq
    by_cases hqi : q.1 = i
    · simpa [hqi] using hlt
    · simpa [hqi] using hlt
  · rw [hunrel]
    simp
  · intro p hp
    obtain ⟨q, hq, rfl⟩ := List.mem_map.1 hp
    by_cases hqi : q.1 = i
    · simp [hqi]
    · rcases hothers q hq with h1 | h2
      · exact absurd h1 hqi
      · simpa [hqi] using h2

/-- Settling a pending scan preserves the invariant. -/
theorem qrInv_settle (st : QrState) (i : Nat)
    (hinv : qrInv st = true) (hset : settledLk st i = false) :
    qrInv (settleState st i) = true := by
  have hlk := settledLk_false_lookup st i hset
  have hac := unsettled_is_active st i hinv hlk
  unfold qrInv at hinv
  rw [hac] at hinv
  simp only [Bool.and_eq_true, List.all_eq_true, beq_iff_eq, Bool.or_eq_true,
             decide_eq_true_eq] at hinv
  obtain ⟨hkeys, ⟨⟨hunrel, _⟩, _⟩, hothers⟩ := hinv
  exact qrInv_settleState_core st i hkeys hunrel hothers

/-- `rejectOnce` preserves the invariant. -/
theorem qrInv_reject (st : QrState) (i : Nat) (m : String)
    (hinv : qrInv st = true) : qrInv (rejectOnce st i m).1 = true := by
  unfold rejectOnce
  by_cases hs : settledLk st i = true
  · simp [hs, hinv]
  · have hs' : settledLk st i = false := by simpa using hs
    simp [hs', qrInv_settle st i hinv hs']

/-- `resolveOnce` preserves the invariant. -/
theorem qrInv_resolve (st : QrState) (i : Nat) (v : String)
    (hinv : qrInv st = true) : qrInv (resolveOnce st i v).1 = true := by
  unfold resolveOnce
  by_cases hs : settledLk st i = true
  · simp [hs, hinv]
  · have hs' : settledLk st i = false := by simpa using hs
    simp [hs', qrInv_settle st i hinv hs']

/-- `cancelInvoiceScan` preserves the invariant. -/
theorem qrInv_cancel (st : QrState) (m : String)
    (hinv : qrInv st = true) : qrInv (cancelScan st m).1 = true := by
  cases hac : st.activeCancel with
  | none => simpa [cancelScan, hac] using hinv
  | some k =>
      have hinv' := hinv
      unfold qrInv at hinv'
      rw [hac] at hinv'
      simp only [Bool.and_eq_true, List.all_eq_true, beq_iff_eq, Bool.or_eq_true,
                 decide_eq_true_eq] at hinv'
      obtain ⟨hkeys, ⟨⟨hunrel, _⟩, hlk⟩, hothers⟩ := hinv'
      have hset : settledLk { st with activeCancel := none } k = false := by
        simp [settledLk, hlk]
      simp only [cancelScan, hac, rejectOnce, hset, Bool.false_eq_true, if_false]
      exact qrInv_settleState_core { st with activeCancel := none } k hkeys hunrel hothers

/-- `scanInvoiceOnce` preserves the invariant. -/
theorem qrInv_scan (st : QrState) (hinv : qrInv st = true) :
    qrInv (scanOnce st).1 = true := by
  have h1 := qrInv_cancel st "Interrupt previous scan" hinv
  have hac1 := cancelScan_activeCancel st "Interrupt previous scan"
  unfold qrInv at h1
  rw [hac1] at h1
  simp only [Bool.and_eq_true, List.all_eq_true, List.isEmpty_iff,
             decide_eq_true_eq] at h1
  obtain ⟨hkeys, hunrel, hsettled⟩ := h1
  unfold scanOnce qrInv
  simp only [Bool.and_eq_true, List.all_eq_true, beq_iff_eq, Bool.or_eq_true,
             decide_eq_true_eq]
  refine ⟨?_, ⟨⟨?_, ?_⟩, ?_⟩, ?_⟩
  · intro p hp
    rcases List.mem_cons.1 hp with h | h
    · subst h
      exact Nat.lt_succ_self _
    · exact Nat.lt_succ_of_lt (hkeys p h)
  · rw [hunrel]
  · trivial
  · exact List.lookup_cons_self
  · intro p hp
    rcases List.mem_cons.1 hp with h | h
    · subst h
      exact Or.inl rfl
    · exact Or.inr (hsettled p h)

/-- One step of any stimulus preserves the invariant. -/
theorem qrInv_step (st : QrState) (a : QrAct) (hinv : qrInv st = true) :
    qrInv (qrStep st a).1 = true := by
  cases a with
  | decoded i v => exact qrInv_resolve st i v hinv
  | startFail i m => exact qrInv_reject st i m hinv
  | cancel m => exact qrInv_cancel st m hinv
  | scan => exact qrInv_scan st hinv

theorem lookup_lt_nextId (st : QrState) (i : Nat) (hinv : qrInv st = true)
    (h : List.lookup i st.settledOf ≠ none) : i < st.nextId := by
  cases hl : List.lookup i st.settledOf with
  | none => exact absurd hl h
  | some b =>
      have hmem := lookup_mem _ _ _ hl
      unfold qrInv at hinv
      simp only [Bool.and_eq_true, List.all_eq_true, decide_eq_true_eq] at hinv
      exact hinv.1 (i, b) hmem

theorem settledLk_settleState_self (st : QrState) (j : Nat) :
    settledLk (settleState st j) j = true := by
  unfold settledLk settleState
  simp only []
  rw [lookup_setSettled_self]
  cases List.lookup j st.settledOf <;> simp

theorem settledLk_settleState_ne (st : QrState) (i j : Nat) (h : i ≠ j) :
    settledLk (settleState st j) i = settledLk st i := by
  unfold settledLk settleState
  simp only []
  rw [lookup_setSettled_ne _ _ _ h]

theorem lookup_settleState_ne_none (st : QrState) (i j : Nat)
    (h : List.lookup i st.settledOf ≠ none) :
    List.lookup i (settleState st j).settledOf ≠ none := by
  unfold settleState
  simp only []
  by_cases hij : i = j
  · subst hij
    rw [lookup_setSettled_self]
    cases hl : List.lookup i st.settledOf with
    | none => exact absurd hl h
    | some b => simp
  · rw [lookup_setSettled_ne _ _ _ hij]
    exact h

theorem settleCount_append (i : Nat) (xs ys : List QrEvent) :
    settleCount i (xs ++ ys) = settleCount i xs + settleCount i ys := by
  simp [settleCount, List.filter_append]

/-- The settle budget of scan `i`: one settle event left while pending,
none once settled. -/
def pendingCredit (st : QrState) (i : Nat) : Nat :=
  if settledLk st i then 0 else 1

theorem settle_reject_bound (st : QrState) (j : Nat) (m : String) (i : Nat)
    (hlk : List.lookup i st.settledOf ≠ none) :
    settleCount i (rejectOnce st j m).2 + pendingCredit (rejectOnce st j m).1 i
        ≤ pendingCredit st i ∧
    List.lookup i (rejectOnce st j m).1.settledOf ≠ none ∧
    (rejectOnce st j m).1.nextId = st.nextId := by
  unfold rejectOnce
  by_cases hs : settledLk st j = true
  · simp only [hs, if_true]
    exact ⟨by simp [settleCount, List.filter], hlk, by trivial⟩
  · have hs' : settledLk st j = false := by simpa using hs
    simp only [hs', Bool.false_eq_true, if_false]
    refine ⟨?_, lookup_settleState_ne_none st i j hlk, rfl⟩
    by_cases hij : i = j
    · subst hij
      have hcount : settleCount i [QrEvent.released i, QrEvent.rejected i m] = 1 := by
        simp [settleCount, QrEvent.settles, List.filter]
      rw [hcount]
      unfold pendingCredit
      rw [settledLk_settleState_self, hs']
      simp
    · have hcount : settleCount i [QrEvent.released j, QrEvent.rejected j m] = 0 := by
        have : (j == i) = false := by
          simp only [beq_eq_false_iff_ne, ne_eq]
          exact fun hji => hij hji.symm
        simp [settleCount, QrEvent.settles, List.filter, this]
      rw [hcount]
      unfold pendingCredit
      rw [settledLk_settleState_ne st i j hij]
      simp

theorem settle_resolve_bound (st : QrState) (j : Nat) (v : String) (i : Nat)
    (hlk : List.lookup i st.settledOf ≠ none) :
    settleCount i (resolveOnce st j v).2 + pendingCredit (resolveOnce st j v).1 i
        ≤ pendingCredit st i ∧
    List.lookup i (resolveOnce st j v).1.settledOf ≠ none ∧
    (resolveOnce st j v).1.nextId = st.nextId := by
  unfold resolveOnce
  by_cases hs : settledLk st j = true
  · simp only [hs, if_true]
    exact ⟨by simp [settleCount, List.filter], hlk, by trivial⟩
  · have hs' : settledLk st j = false := by simpa using hs
    simp only [hs', Bool.false_eq_true, if_false]
    refine ⟨?_, lookup_settleState_ne_none st i j hlk, rfl⟩
    by_cases hij : i = j
    · subst hij
      have hcount : settleCount i [QrEvent.released i, QrEvent.resolved i v] = 1 := by
        simp [settleCount, QrEvent.settles, List.filter]
      rw [hcount]
      unfold pendingCredit
      rw [settledLk_settleState_self, hs']
      simp
    · have hcount : settleCount i [QrEvent.released j, QrEvent.resolved j v] = 0 := by
        have : (j == i) = false := by
          simp only [beq_eq_false_iff_ne, ne_eq]
          exact fun hji => hij hji.symm
        simp [settleCount, QrEvent.settles, List.filter, this]
      rw [hcount]
      unfold pendingCredit
      rw [settledLk_settleState_ne st i j hij]
      simp

theorem settle_cancel_bound (st : QrState) (m : String) (i : Nat)
    (hlk : List.lookup i st.settledOf ≠ none) :
    settleCount i (cancelScan st m).2 + pendingCredit (cancelScan st m).1 i
        ≤ pendingCredit st i ∧
    List.lookup i (cancelScan st m).1.settledOf ≠ none ∧
    (cancelScan st m).1.nextId = st.nextId := by
  cases hac : st.activeCancel with
  | none =>
      simp only [cancelScan, hac]
      exact ⟨by simp [settleCount, List.filter], hlk, by trivial⟩
  | some k =>
      simp only [cancelScan, hac]
      have h := settle_reject_bound { st with activeCancel := none } k m i hlk
      exact h

theorem settle_step_bound (st : QrState) (a : QrAct) (i : Nat)
    (hinv : qrInv st = true) (hlk : List.lookup i st.settledOf ≠ none) :
    settleCount i (qrStep st a).2 + pendingCredit (qrStep st a).1 i
        ≤ pendingCredit st i ∧
    List.lookup i (qrStep st a).1.settledOf ≠ none := by
  cases a with
  | decoded j v =>
      have h := settle_resolve_bound st j v i hlk
      exact ⟨h.1, h.2.1⟩
  | startFail j m =>
      have h := settle_reject_bound st j m i hlk
      exact ⟨h.1, h.2.1⟩
  | cancel m =>
      have h := settle_cancel_bound st m i hlk
      exact ⟨h.1, h.2.1⟩
  | scan =>
      have hc := settle_cancel_bound st "Interrupt previous scan" i hlk
      have hlt : i < st.nextId := lookup_lt_nextId st i hinv hlk
      have hne : i ≠ (cancelScan st "Interrupt previous scan").1.nextId := by
        rw [hc.2.2]
        omega
      have hbeq : (i == (cancelScan st "Interrupt previous scan").1.nextId) = false := by
        simp only [beq_eq_false_iff_ne, ne_eq]
        exact hne
      have hstepevs : (qrStep st QrAct.scan).2 =
          (cancelScan st "Interrupt previous scan").2
            ++ [QrEvent.created (cancelScan st "Interrupt previous scan").1.nextId,
                QrEvent.started (cancelScan st "Interrupt previous scan").1.nextId] := by
        simp [qrStep, scanOnce]
      have hlk2 : List.lookup i (qrStep st QrAct.scan).1.settledOf ≠ none := by
        have : (qrStep st QrAct.scan).1.settledOf =
            ((cancelScan st "Interrupt previous scan").1.nextId, false)
              :: (cancelScan st "Interrupt previous scan").1.settledOf := by
          simp [qrStep, scanOnce]
        rw [this, List.lookup_cons, hbeq]
        exact hc.2.1
      refine ⟨?_, hlk2⟩
      have hcredit : pendingCredit (qrStep st QrAct.scan).1 i =
          pendingCredit (cancelScan st "Interrupt previous scan").1 i := by
        unfold pendingCredit settledLk
        have : (qrStep st QrAct.scan).1.settledOf =
            ((cancelScan st "Interrupt previous scan").1.nextId, false)
              :: (cancelScan st "Interrupt previous scan").1.settledOf := by
          simp [qrStep, scanOnce]
        rw [this, List.lookup_cons, hbeq]
      rw [hstepevs, settleCount_append, hcredit]
      have hzero : settleCount i
          [QrEvent.created (cancelScan st "Interrupt previous scan").1.nextId,
           QrEvent.started (cancelScan st "Interrupt previous scan").1.nextId] = 0 := by
        simp [settleCount, QrEvent.settles, List.filter]
      rw [hzero]
      have := hc.1
      omega

theorem settle_run_bound (i : Nat) (acts : List QrAct) :
    ∀ st : QrState, qrInv st = true → List.lookup i st.settledOf ≠ none →
      settleCount i (runActs st acts).2 ≤ pendingCredit st i := by
  induction acts with
  | nil =>
      intro st _ _
      simp [runActs, settleCount, List.filter, pendingCredit]
  | cons a rest ih =>
      intro st hinv hlk
      have hstep := settle_step_bound st a i hinv hlk
      have hinv' := qrInv_step st a hinv
      have hrest := ih (qrStep st a).1 hinv' hstep.2
      show settleCount i ((qrStep st a).2 ++ (runActs (qrStep st a).1 rest).2) ≤ _
      rw [settleCount_append]
      omega

/-- The state after one `scanInvoiceOnce` from the initial module state:
scan 0 is pending and scanner 0 is active. -/
def qrW : QrState := (scanOnce qrInit).1

/-- C3: camera scanning is single-flight. The module invariant holds
initially and is preserved by every stimulus, and under it at most one
scanner is unreleased at any time; and a `scanInvoiceOnce` arriving while
scan `k` is still pending first rejects scan `k` with the error
"Interrupt previous scan" and releases its scanner, and only then creates
and starts the new scanner, as the emitted event order shows. -/
theorem scan_single_flight (st : QrState) (hinv : qrInv st = true) :
    qrInv qrInit = true ∧
    (∀ a : QrAct, qrInv (qrStep st a).1 = true ∧
        (qrStep st a).1.unreleased.length ≤ 1) ∧
    st.unreleased.length ≤ 1 ∧
    (∀ k, List.lookup k st.settledOf = some false →
        (scanOnce st).2 =
          [QrEvent.released k, QrEvent.rejected k "Interrupt previous scan",
           QrEvent.created st.nextId, QrEvent.started st.nextId]) := by
  refine ⟨by decide, ?_, qrInv_unreleased_len st hinv, ?_⟩
  · intro a
    have h := qrInv_step st a hinv
    exact ⟨h, qrInv_unreleased_len _ h⟩
  · intro k hk
    have hac := unsettled_is_active st k hinv hk
    have hset : settledLk { st with activeCancel := none } k = false := by
      simp [settledLk, hk]
    simp [scanOnce, cancelScan, hac, rejectOnce, hset, settleState]

/-- Witness for C3: the second scan from the initial state interrupts the
first pending scan before starting scanner 1. -/
theorem scan_single_flight_witness :
    qrInv qrW = true ∧
    List.lookup 0 qrW.settledOf = some false ∧
    (scanOnce qrW).2 =
      [QrEvent.released 0, QrEvent.rejected 0 "Interrupt previous scan",
       QrEvent.created qrW.nextId, QrEvent.started qrW.nextId] :=
  ⟨by decide, by decide,
   (scan_single_flight qrW (by decide)).2.2.2 0 (by decide)⟩

/-- C4: each scan's promise settles exactly once. A settled scan is immune
to further decode or cancel callbacks (they return without events); a
pending scan settles with exactly one settlement event, after which its
flag is set; `cancelInvoiceScan` is a no-op when no cancel hook is
registered; and over any sequence of stimuli a created scan's promise
receives at most one settlement event, so decode, start failure and
cancellation are mutually exclusive outcomes. -/
theorem scan_settles_once (st : QrState) (i : Nat) (hinv : qrInv st = true) :
    (settledLk st i = true →
        (∀ v, resolveOnce st i v = (st, [])) ∧
        (∀ m, rejectOnce st i m = (st, []))) ∧
    (settledLk st i = false →
        (∀ v, (resolveOnce st i v).2 = [QrEvent.released i, QrEvent.resolved i v] ∧
              settledLk (resolveOnce st i v).1 i = true) ∧
        (∀ m, (rejectOnce st i m).2 = [QrEvent.released i, QrEvent.rejected i m] ∧
              settledLk (rejectOnce st i m).1 i = true)) ∧
    (st.activeCancel = none → ∀ m, cancelScan st m = (st, [])) ∧
    (∀ acts : List QrAct, List.lookup i st.settledOf ≠ none →
        settleCount i (runActs st acts).2 ≤ 1) := by
  refine ⟨?_, ?_, ?_, ?_⟩
  · intro hs
    exact ⟨fun v => by simp [resolveOnce, hs], fun m => by simp [rejectOnce, hs]⟩
  · intro hs
    constructor
    · intro v
      constructor
      · simp [resolveOnce, hs]
      · simp [resolveOnce, hs, settledLk_settleState_self]
    · intro m
      constructor
      · simp [rejectOnce, hs]
      · simp [rejectOnce, hs, settledLk_settleState_self]
  · intro hac m
    simp [cancelScan, hac]
  · intro acts hlk
    have h := settle_run_bound i acts st hinv hlk
    have hle : pendingCredit st i ≤ 1 := by
      unfold pendingCredit
      split <;> omega
    omega

/-- Witness for C4: scan 0, once decoded, absorbs a later cancellation and
a duplicate decode without settling again. -/
theorem scan_settles_once_witness :
    qrInv qrW = true ∧
    List.lookup 0 qrW.settledOf ≠ none ∧
    settleCount 0 (runActs qrW
      [QrAct.decoded 0 "lnbc1", QrAct.cancel "user cancelled",
       QrAct.decoded 0 "lnbc1-again"]).2 ≤ 1 :=
  ⟨by decide, by decide,
   (scan_settles_once qrW 0 (by decide)).2.2.2
     [QrAct.decoded 0 "lnbc1", QrAct.cancel "user cancelled",
      QrAct.decoded 0 "lnbc1-again"] (by decide)⟩

end Cashubash
